import Mathlib

set_option maxRecDepth 8000

/-!
A verification development for the resource deployment planner of
pkg/resource/plan.go: snapshot diffing, dependency-graph construction,
topological sequencing, and the step-apply executor.

Modelling conventions.

Only pkg/resource/plan.go is available; the identity / property model
(monikers, resource types, property bags with reference enumeration and
deep equality), the Snapshot and Resource interfaces, the provider
registry and the graph package (planVertex, planGraph, graph.Topsort)
are collaborators whose definitions are modelled from the spec, each
marked with a doc comment starting with: Modelled from the spec.

Go panics raised through the contract package (contract.Assert,
contract.Assertf, contract.Failf) abort the computation; they are
modelled as ContractFailure values propagated through Except.
contract.Assert carries an empty message, contract.Assertf and
contract.Failf carry their format string.

Go maps are modelled as last-write-wins association lookups over the
underlying resource lists; where the Go code ranges over a map (whose
iteration order is unspecified), the model either produces data whose
downstream use is order-insensitive, or - for the vertex map handed to
the sequencer - takes the enumeration order as an explicit parameter.
-/

/-- A stable, opaque resource identifier (the join key between snapshots). -/
abbrev Moniker := String

/-- A provider-assigned resource ID.  The empty string means that no ID has
been assigned; HasID in the source is ID inequality with the empty string. -/
abbrev RID := String

/-- Modelled from the spec: a resource type is a dotted token whose leading
segment is the package that selects the provider (tokens package not in src). -/
structure RType where
  pkg : String
  tname : String
deriving DecidableEq, Repr

/-- Modelled from the spec: a tagged property value - scalar, sequence,
nested bag, or resource reference (a moniker). -/
inductive PropertyValue where
  | vNull
  | vBool (b : Bool)
  | vNum (n : Int)
  | vStr (s : String)
  | vRes (m : Moniker)
  | vArr (elems : List PropertyValue)
  | vObj (fields : List (String × PropertyValue))

/-- Modelled from the spec: a property bag maps string keys to values. -/
abbrev PropertyBag := List (String × PropertyValue)

mutual

/-- Modelled from the spec: deep structural equality of property values
(PropertyMap.DeepEquals in the source repository, not in src). -/
def pvBeq : PropertyValue → PropertyValue → Bool
  | .vNull, .vNull => true
  | .vBool a, .vBool b => a == b
  | .vNum a, .vNum b => a == b
  | .vStr a, .vStr b => a == b
  | .vRes a, .vRes b => a == b
  | .vArr a, .vArr b => pvListBeq a b
  | .vObj a, .vObj b => pvFieldsBeq a b
  | _, _ => false

def pvListBeq : List PropertyValue → List PropertyValue → Bool
  | [], [] => true
  | a :: as, b :: bs => pvBeq a b && pvListBeq as bs
  | _, _ => false

def pvFieldsBeq : List (String × PropertyValue) → List (String × PropertyValue) → Bool
  | [], [] => true
  | (ka, va) :: as, (kb, vb) :: bs => ka == kb && pvBeq va vb && pvFieldsBeq as bs
  | _, _ => false

end

/-- Deep structural equality of property bags (DeepEquals). -/
def bagBeq (a b : PropertyBag) : Bool := pvFieldsBeq a b

mutual

/-- Modelled from the spec: enumeration of all transitively embedded resource
references of a value (PropertyMap.AllResources in the source repository),
recursive through nested bags and sequences. -/
def pvAllRes : PropertyValue → List Moniker
  | .vRes m => [m]
  | .vArr es => pvListAllRes es
  | .vObj fs => pvFieldsAllRes fs
  | _ => []

def pvListAllRes : List PropertyValue → List Moniker
  | [] => []
  | v :: vs => pvAllRes v ++ pvListAllRes vs

def pvFieldsAllRes : List (String × PropertyValue) → List Moniker
  | [] => []
  | f :: fs => pvAllRes f.2 ++ pvFieldsAllRes fs

end

/-- All transitively embedded resource references of a bag.  The Go
AllResources returns a set (a map keyed by moniker), so the list is
deduplicated. -/
def bagAllRes (b : PropertyBag) : List Moniker := (pvFieldsAllRes b).dedup

/-- Modelled from the spec: a resource has a moniker, an immutable type, an
optional provider-assigned ID (empty string when absent) and a property bag. -/
structure Resource where
  moniker : Moniker
  ty : RType
  rid : RID
  properties : PropertyBag

/-- HasID: a resource has an ID iff its ID is not the empty string. -/
def Resource.hasIDB (r : Resource) : Bool := r.rid != ""

/-- The references embedded in this resource's property bag. -/
def Resource.allRefs (r : Resource) : List Moniker := bagAllRes r.properties

/-- Structural equality of resources, the model's stand-in for the pointer
identity used by the Go maps keyed by Resource. -/
def resBeq (a b : Resource) : Bool :=
  a.moniker == b.moniker && decide (a.ty = b.ty) && a.rid == b.rid
    && bagBeq a.properties b.properties

/-- Modelled from the spec: a snapshot is an enumerable sequence of
resources (Snapshot.Resources). -/
abbrev Snapshot := List Resource

/-- Resources of an optional snapshot: a nil snapshot contributes none
(the oldres / newres slices of newPlan). -/
def resOf : Option Snapshot → List Resource
  | none => []
  | some s => s

/-- Lookup in a Go map built by inserting the listed resources in order
keyed by moniker: the last insertion wins. -/
def lookupRes (l : List Resource) (m : Moniker) : Option Resource :=
  l.reverse.find? (fun r => r.moniker == m)

/-- The distinct monikers of a resource list (the key set of the Go map). -/
def keysList (l : List Resource) : List Moniker := (l.map (·.moniker)).dedup

/-- StepOp: the kind of operation performed by a step. -/
inductive StepOp where
  | create
  | read
  | update
  | delete
deriving DecidableEq, Repr

/-- A step: operation, old resource state (update and delete), new resource
state (create and update).  The successor link of the Go struct is modelled
by the position in the plan's step list. -/
structure PlanStep where
  op : StepOp
  old : Option Resource
  new : Option Resource

/-- newCreateStep in the source. -/
def newCreateStep (new : Resource) : PlanStep := ⟨StepOp.create, none, some new⟩

/-- newDeleteStep in the source. -/
def newDeleteStep (old : Resource) : PlanStep := ⟨StepOp.delete, some old, none⟩

/-- newUpdateStep in the source. -/
def newUpdateStep (old new : Resource) : PlanStep := ⟨StepOp.update, some old, some new⟩

/-- The moniker a step concerns: its new resource's moniker when present,
otherwise its old resource's moniker. -/
def stepMoniker (s : PlanStep) : Moniker :=
  match s.new with
  | some n => n.moniker
  | none =>
    match s.old with
    | some o => o.moniker
    | none => ""

/-- plan.Empty: a plan is empty iff it has no first step. -/
def planEmptyB (steps : List PlanStep) : Bool := steps.isEmpty

/-- A Go panic raised through the contract package.  contract.Assert
carries an empty message; Assertf and Failf carry their format string. -/
inductive ContractFailure where
  | assertionFailure (msg : String)
deriving DecidableEq, Repr

/-- The classification the diff engine gives a moniker. -/
inductive DiffClass where
  | delete
  | create
  | update
  | noop
  | absent
deriving DecidableEq, Repr

/-- The diff classification of newPlan lines 148-181: in old but not new is
a delete; in new but not old is a create; in both, an update exactly when the
property bags differ under DeepEquals, otherwise a noop. -/
def classify (oldL newL : List Resource) (m : Moniker) : DiffClass :=
  match lookupRes oldL m, lookupRes newL m with
  | some _, none => DiffClass.delete
  | none, some _ => DiffClass.create
  | some o, some n => if bagBeq n.properties o.properties then DiffClass.noop else DiffClass.update
  | none, none => DiffClass.absent

/-- The vertex map vs of newPlan: one step per non-noop moniker, keyed by
moniker - a delete step for monikers only in old, a create step for monikers
only in new, an update step for monikers in both whose bags differ. -/
def vsMap (oldL newL : List Resource) (m : Moniker) : Option PlanStep :=
  match lookupRes oldL m, lookupRes newL m with
  | some o, none => some (newDeleteStep o)
  | none, some n => some (newCreateStep n)
  | some o, some n =>
    if bagBeq n.properties o.properties then none else some (newUpdateStep o n)
  | none, none => none

/-- The monikers carrying a vertex, in the model's canonical enumeration
order (the Go map iteration order is unspecified; theorems about order
sensitivity quantify over permutations of this list). -/
def activeKeys (oldL newL : List Resource) : List Moniker :=
  (keysList oldL ++ keysList newL).dedup.filter (fun m => (vsMap oldL newL m).isSome)

/-- True iff some moniker is present in both snapshots with diverging
resource types - the situation rejected by the contract.Assert at line 166. -/
def typeMismatchExistsB (oldL newL : List Resource) : Bool :=
  (keysList newL).any (fun m =>
    match lookupRes oldL m, lookupRes newL m with
    | some o, some n => decide (¬ o.ty = n.ty)
    | _, _ => false)

/-- The type assertion of the news loop (line 166): ranging over new
resources, any moniker also present in old must keep its type; a divergence
panics.  The loop's only effect before the panic is discarded state, so it
is modelled as a pre-check. -/
def typeCheck (oldL newL : List Resource) : Except ContractFailure Unit :=
  if typeMismatchExistsB oldL newL then
    Except.error (ContractFailure.assertionFailure "")
  else Except.ok ()

/-- olddepends of newPlan lines 130-138: for each moniker, the monikers of
the old resources whose properties reference it, in old-snapshot order. -/
def olddependsOf (oldL : List Resource) (m : Moniker) : List Moniker :=
  (oldL.filter (fun r => r.allRefs.contains m)).map (·.moniker)

/-- Membership of a resource in the deletes set (line 149-158): its moniker
is absent from new, and it is the map-resident resource for its moniker. -/
def isDeleteResB (oldL newL : List Resource) (res : Resource) : Bool :=
  (lookupRes newL res.moniker).isNone &&
    (match lookupRes oldL res.moniker with
     | some o => resBeq o res
     | none => false)

/-- The updates map lookup of line 205: updates[res] is the new resource
recorded for res's moniker, present exactly when res is the map-resident old
resource, the moniker is in both snapshots and the bags differ. -/
def updateTargetOf (oldL newL : List Resource) (res : Resource) : Option Resource :=
  match lookupRes oldL res.moniker, lookupRes newL res.moniker with
  | some o, some t =>
    if resBeq o res && !(bagBeq t.properties o.properties) then some t else none
  | _, _ => none

/-- Membership of a resource in the creates set (lines 175-180): its moniker
is absent from old, and it is the map-resident resource for its moniker. -/
def isCreateResB (oldL newL : List Resource) (res : Resource) : Bool :=
  (lookupRes oldL res.moniker).isNone &&
    (match lookupRes newL res.moniker with
     | some n => resBeq n res
     | none => false)

/-- One edge per referenced moniker: each referent must have a vertex
(the contract.Assert at lines 201, 214 and 229), otherwise the construction
panics; no silent omission takes place. -/
def collectRefEdges (vs : Moniker → Option PlanStep) (mk : Moniker → Moniker × Moniker) :
    List Moniker → Except ContractFailure (List (Moniker × Moniker))
  | [] => Except.ok []
  | ref :: rest =>
    match vs ref with
    | none => Except.error (ContractFailure.assertionFailure "")
    | some _ =>
      match collectRefEdges vs mk rest with
      | Except.error e => Except.error e
      | Except.ok es => Except.ok (mk ref :: es)

/-- Edges contributed by one old resource (lines 192-219): a deleted
resource receives edges from each recorded dependent; an updated resource
points at the vertices of the references of its new properties. -/
def edgesForOldRes (oldL newL : List Resource) (res : Resource) :
    Except ContractFailure (List (Moniker × Moniker)) :=
  let m := res.moniker
  if isDeleteResB oldL newL res then
    match vsMap oldL newL m with
    | none => Except.error (ContractFailure.assertionFailure "")
    | some _ =>
      collectRefEdges (vsMap oldL newL) (fun ref => (ref, m)) (olddependsOf oldL m)
  else
    match updateTargetOf oldL newL res with
    | some t =>
      match vsMap oldL newL m with
      | none => Except.error (ContractFailure.assertionFailure "")
      | some _ => collectRefEdges (vsMap oldL newL) (fun ref => (m, ref)) t.allRefs
    | none => Except.ok []

/-- Edges contributed by one new resource (lines 220-234): a created
resource points at the vertices of the references of its properties. -/
def edgesForNewRes (oldL newL : List Resource) (res : Resource) :
    Except ContractFailure (List (Moniker × Moniker)) :=
  let m := res.moniker
  if isCreateResB oldL newL res then
    match vsMap oldL newL m with
    | none => Except.error (ContractFailure.assertionFailure "")
    | some _ => collectRefEdges (vsMap oldL newL) (fun ref => (m, ref)) res.allRefs
  else Except.ok []

/-- Sequencing a per-resource edge computation over a resource list,
propagating the first panic. -/
def edgesList (f : Resource → Except ContractFailure (List (Moniker × Moniker))) :
    List Resource → Except ContractFailure (List (Moniker × Moniker))
  | [] => Except.ok []
  | r :: rs =>
    match f r with
    | Except.error e => Except.error e
    | Except.ok es =>
      match edgesList f rs with
      | Except.error e => Except.error e
      | Except.ok es2 => Except.ok (es ++ es2)

/-- All dependency edges of the plan graph, old-loop edges first. -/
def planEdges (oldL newL : List Resource) :
    Except ContractFailure (List (Moniker × Moniker)) :=
  match edgesList (edgesForOldRes oldL newL) oldL with
  | Except.error e => Except.error e
  | Except.ok e1 =>
    match edgesList (edgesForNewRes oldL newL) newL with
    | Except.error e => Except.error e
    | Except.ok e2 => Except.ok (e1 ++ e2)

/-- Byte-wise lexicographic comparison of character lists, the moniker order
used by the modelled sequencer's deterministic tie-break. -/
def lexLe : List Char → List Char → Bool
  | [], _ => true
  | _ :: _, [] => false
  | a :: as, b :: bs =>
    if a.toNat < b.toNat then true
    else if b.toNat < a.toNat then false
    else lexLe as bs

/-- Lexicographic order on monikers. -/
def monLE (a b : Moniker) : Prop := lexLe a.toList b.toList = true

instance (a b : Moniker) : Decidable (monLE a b) := by unfold monLE; infer_instance

/-- Modelled from the spec: the sequencer's deterministic tie-break sorts
vertices by moniker lexicographic order. -/
def sortMonikers (l : List Moniker) : List Moniker := l.insertionSort monLE

/-- The vertices with no unsatisfied prerequisite: every outgoing edge
points at an already-emitted vertex. -/
def topsortReady (edges : List (Moniker × Moniker)) (remaining : List Moniker) :
    List Moniker :=
  remaining.filter (fun m => edges.all (fun e => !(e.1 == m) || !(remaining.contains e.2)))

/-- Modelled from the spec: Kahn-style topological sorting - repeatedly emit
the first ready vertex of the (sorted) remaining list; if no vertex is ready
while some remain, the graph has a cycle and the error names the stuck
vertices. -/
def kahnSort (edges : List (Moniker × Moniker)) :
    Nat → List Moniker → List Moniker → Except (List Moniker) (List Moniker)
  | 0, remaining, acc =>
    if remaining.isEmpty then Except.ok acc.reverse else Except.error remaining
  | fuel + 1, remaining, acc =>
    if remaining.isEmpty then Except.ok acc.reverse
    else
      match topsortReady edges remaining with
      | [] => Except.error remaining
      | r :: _ => kahnSort edges fuel (remaining.erase r) (r :: acc)

/-- Modelled from the spec: graph.Topsort (not in src) - produce a linear
order over the vertices in which the target of every edge precedes its
source, choosing deterministically by moniker lexicographic order among
ready vertices; a cycle is reported as an error naming stuck vertices. -/
def topsortModel (vertices : List Moniker) (edges : List (Moniker × Moniker)) :
    Except (List Moniker) (List Moniker) :=
  let sorted := sortMonikers vertices
  kahnSort edges sorted.length sorted []

/-- The message of the contract.Assertf guarding the Topsort call. -/
def topsortAssertMsg : String := "Unexpected error topologically sorting update plan"

/-- newPlan with the enumeration order of the vertex map made explicit:
the Go code ranges over the map vs to collect the graph handed to the
sequencer, and map iteration order is unspecified.  Panic-free construction
yields the topologically sorted step chain; the type assertion, the
missing-vertex assertions and the Assertf around Topsort abort it. -/
def newPlanOrd (old new : Option Snapshot) (vsOrder : List Moniker) :
    Except ContractFailure (List PlanStep) :=
  let oldL := resOf old
  let newL := resOf new
  match typeCheck oldL newL with
  | Except.error e => Except.error e
  | Except.ok _ =>
    match planEdges oldL newL with
    | Except.error e => Except.error e
    | Except.ok edges =>
      match topsortModel vsOrder edges with
      | Except.error _ => Except.error (ContractFailure.assertionFailure topsortAssertMsg)
      | Except.ok order => Except.ok (order.filterMap (vsMap oldL newL))

/-- NewPlan / newPlan: analyze the two optional snapshots and produce the
plan's step chain, with the canonical vertex enumeration order. -/
def newPlan (old new : Option Snapshot) : Except ContractFailure (List PlanStep) :=
  newPlanOrd old new (activeKeys (resOf old) (resOf new))

/-- Modelled from the spec: the opaque resource health signal returned by
providers; the source only names StateOK, the spec lists the others. -/
inductive ResourceState where
  | ok
  | unknown
  | pending
  | corrupt
deriving DecidableEq, Repr

/-- The result triple of a provider Create or Update call: an ID, an
optional error and a resource state. -/
structure ProvRet where
  retID : RID
  err : Option String
  state : ResourceState
deriving Repr

/-- The result pair of a provider Delete call. -/
structure DelRet where
  err : Option String
  state : ResourceState
deriving Repr

/-- Modelled from the spec: a provider performs create, update and delete
for the resources of one package. -/
structure Provider where
  create : RType → PropertyBag → ProvRet
  update : RID → RType → PropertyBag → PropertyBag → ProvRet
  delete : RID → RType → DelRet

/-- Modelled from the spec: ctx.Provider resolves the provider for a
package, or returns an error; acquisition failures surface as the step's
error.  Caching inside the context does not change which provider a
package resolves to, so the registry is modelled as a pure map. -/
abbrev PlanContext := String → Except String Provider

/-- A record of one provider operation invocation, for stating that a
failing step invoked no provider operation. -/
inductive ProviderCall where
  | createCall (t : RType) (props : PropertyBag)
  | updateCall (rid : RID) (t : RType) (olds news : PropertyBag)
  | deleteCall (rid : RID) (t : RType)

/-- How one step execution ends: a contract panic, or a normal return
carrying the error and resource state pair of step.Apply. -/
inductive StepOutcome where
  | panicked (f : ContractFailure)
  | done (err : Option String) (rst : ResourceState)

/-- step.Apply (lines 299-348): dispatch on the operation, check the
contract assertions, resolve the provider (acquisition failure returns the
error with StateOK), invoke the provider operation, and on success set the
new resource's ID - always for a create, and for an update only when the
provider returned a non-empty ID.  The returned PlanStep carries the
resource states after the call; the call list records the provider
operations invoked. -/
def stepApply (ctx : PlanContext) (s : PlanStep) :
    StepOutcome × PlanStep × List ProviderCall :=
  match s.op with
  | StepOp.create =>
    match s.old with
    | some _ => (StepOutcome.panicked (ContractFailure.assertionFailure ""), s, [])
    | none =>
      match s.new with
      | none => (StepOutcome.panicked (ContractFailure.assertionFailure ""), s, [])
      | some n =>
        if n.hasIDB then
          (StepOutcome.panicked (ContractFailure.assertionFailure
            "Resources being created must not have IDs already"), s, [])
        else
          match ctx n.ty.pkg with
          | Except.error e => (StepOutcome.done (some e) ResourceState.ok, s, [])
          | Except.ok prov =>
            let r := prov.create n.ty n.properties
            match r.err with
            | some e =>
              (StepOutcome.done (some e) r.state, s,
                [ProviderCall.createCall n.ty n.properties])
            | none =>
              (StepOutcome.done none ResourceState.ok,
                { s with new := some { n with rid := r.retID } },
                [ProviderCall.createCall n.ty n.properties])
  | StepOp.delete =>
    match s.new with
    | some _ => (StepOutcome.panicked (ContractFailure.assertionFailure ""), s, [])
    | none =>
      match s.old with
      | none => (StepOutcome.panicked (ContractFailure.assertionFailure ""), s, [])
      | some o =>
        if !o.hasIDB then
          (StepOutcome.panicked (ContractFailure.assertionFailure
            "Resources being deleted must have IDs"), s, [])
        else
          match ctx o.ty.pkg with
          | Except.error e => (StepOutcome.done (some e) ResourceState.ok, s, [])
          | Except.ok prov =>
            let r := prov.delete o.rid o.ty
            match r.err with
            | some e =>
              (StepOutcome.done (some e) r.state, s,
                [ProviderCall.deleteCall o.rid o.ty])
            | none =>
              (StepOutcome.done none ResourceState.ok, s,
                [ProviderCall.deleteCall o.rid o.ty])
  | StepOp.update =>
    match s.old with
    | none => (StepOutcome.panicked (ContractFailure.assertionFailure ""), s, [])
    | some o =>
      match s.new with
      | none => (StepOutcome.panicked (ContractFailure.assertionFailure ""), s, [])
      | some n =>
        if !(decide (o.ty = n.ty)) then
          (StepOutcome.panicked (ContractFailure.assertionFailure ""), s, [])
        else if !o.hasIDB then
          (StepOutcome.panicked (ContractFailure.assertionFailure
            "Resources being updated must have IDs"), s, [])
        else
          match ctx o.ty.pkg with
          | Except.error e => (StepOutcome.done (some e) ResourceState.ok, s, [])
          | Except.ok prov =>
            let r := prov.update o.rid o.ty o.properties n.properties
            match r.err with
            | some e =>
              (StepOutcome.done (some e) r.state, s,
                [ProviderCall.updateCall o.rid o.ty o.properties n.properties])
            | none =>
              if r.retID != "" then
                (StepOutcome.done none ResourceState.ok,
                  { s with new := some { n with rid := r.retID } },
                  [ProviderCall.updateCall o.rid o.ty o.properties n.properties])
              else
                (StepOutcome.done none ResourceState.ok, s,
                  [ProviderCall.updateCall o.rid o.ty o.properties n.properties])
  | StepOp.read =>
    (StepOutcome.panicked (ContractFailure.assertionFailure
      "Unexpected step operation"), s, [])

/-- How a whole plan application ends: a propagated contract panic, a halt
at the first failing step returning its error, the failing step and the
provider's resource state, or normal completion - the Go return value
(nil, nil, StateOK). -/
inductive ApplyOutcome where
  | panicked (f : ContractFailure)
  | halted (e : String) (failing : PlanStep) (rst : ResourceState)
  | completed

/-- plan.Apply (lines 84-100): walk the chain from the head; notify the
observer around each step; halt at the first step returning a non-nil
error; return completion when the chain is exhausted.  The second component
lists the steps on which execution was attempted (the steps an observer
would see). -/
def planApply (ctx : PlanContext) : List PlanStep → ApplyOutcome × List PlanStep
  | [] => (ApplyOutcome.completed, [])
  | s :: rest =>
    let r := stepApply ctx s
    match r.1 with
    | StepOutcome.panicked f => (ApplyOutcome.panicked f, [s])
    | StepOutcome.done (some e) rst => (ApplyOutcome.halted e r.2.1 rst, [s])
    | StepOutcome.done none _ =>
      let t := planApply ctx rest
      (t.1, s :: t.2)

/-- A concrete resource fixture of type pkg.X with no ID. -/
def resFix (m : Moniker) (props : PropertyBag) : Resource :=
  { moniker := m, ty := { pkg := "pkg", tname := "X" }, rid := "", properties := props }

/-- A concrete resource fixture of type pkg.Y with no ID. -/
def resFixY (m : Moniker) : Resource :=
  { moniker := m, ty := { pkg := "pkg", tname := "Y" }, rid := "", properties := [] }

/-- A concrete resource fixture of type pkg.X with an ID. -/
def resFixID (m : Moniker) (rid : RID) (props : PropertyBag) : Resource :=
  { moniker := m, ty := { pkg := "pkg", tname := "X" }, rid := rid, properties := props }

/-- A property bag holding one reference to the given moniker. -/
def refBag (m : Moniker) : PropertyBag := [("ref", PropertyValue.vRes m)]

/-- A concrete resource fixture whose type name makes provFix fail. -/
def resFail (m : Moniker) : Resource :=
  { moniker := m, ty := { pkg := "pkg", tname := "fail" }, rid := "", properties := [] }

/-- A concrete resource fixture whose package has no provider in ctxFix. -/
def resNoPkg (m : Moniker) : Resource :=
  { moniker := m, ty := { pkg := "nopkg", tname := "X" }, rid := "", properties := [] }

/-- A deterministic test provider: creates succeed with a fixed ID except
for the type named fail, updates return the replacement ID A-2, deletes
succeed. -/
def provFix : Provider where
  create := fun t _ =>
    if t.tname == "fail" then { retID := "", err := some "create failed", state := ResourceState.corrupt }
    else { retID := "created-id", err := none, state := ResourceState.ok }
  update := fun _ _ _ _ => { retID := "A-2", err := none, state := ResourceState.ok }
  delete := fun _ _ => { err := none, state := ResourceState.ok }

/-- A test registry: every package resolves to provFix except nopkg. -/
def ctxFix : PlanContext := fun pkg =>
  if pkg == "nopkg" then Except.error "no provider for package" else Except.ok provFix

/-- Whether a classification emits a step. -/
def actionableB : DiffClass → Bool
  | DiffClass.delete => true
  | DiffClass.create => true
  | DiffClass.update => true
  | DiffClass.noop => false
  | DiffClass.absent => false

/-- The step operation a classification gives rise to, if any. -/
def classToOp : DiffClass → Option StepOp
  | DiffClass.delete => some StepOp.delete
  | DiffClass.create => some StepOp.create
  | DiffClass.update => some StepOp.update
  | DiffClass.noop => none
  | DiffClass.absent => none

/-- An old resource whose edge construction dereferences a vertex-less
moniker: a deleted resource one of whose recorded dependents has no vertex,
or an updated resource whose new properties reference a vertex-less
moniker. -/
def oldResBadB (oldL newL : List Resource) (res : Resource) : Bool :=
  (isDeleteResB oldL newL res &&
    (olddependsOf oldL res.moniker).any (fun ref => (vsMap oldL newL ref).isNone))
  || (((updateTargetOf oldL newL res).map (·.allRefs)).getD []).any
      (fun ref => (vsMap oldL newL ref).isNone)

/-- A created resource whose properties reference a vertex-less moniker. -/
def newResBadB (oldL newL : List Resource) (res : Resource) : Bool :=
  isCreateResB oldL newL res &&
    res.allRefs.any (fun ref => (vsMap oldL newL ref).isNone)

/-- Some emitted step's edge construction dereferences a vertex-less
moniker (a referent that is noop or outside the snapshot, or a vertex-less
dependent of a delete). -/
def badRefExistsB (oldL newL : List Resource) : Bool :=
  oldL.any (oldResBadB oldL newL) || newL.any (newResBadB oldL newL)

/-- The error and resource state a step execution returns, when it returns
a non-nil error. -/
def stepFail (ctx : PlanContext) (s : PlanStep) : Option (String × ResourceState) :=
  match (stepApply ctx s).1 with
  | StepOutcome.done (some e) rst => some (e, rst)
  | _ => none

/-- Whether a step outcome is a contract panic. -/
def isPanicB : StepOutcome → Bool
  | StepOutcome.panicked _ => true
  | StepOutcome.done _ _ => false

/-- Frame relation between a step resource slot before and after execution:
absent stays absent, present keeps moniker, type and property bag (only the
ID may change). -/
def resFrame : Option Resource → Option Resource → Prop
  | none, none => True
  | some n, some n2 =>
    n2.moniker = n.moniker ∧ n2.ty = n.ty ∧ n2.properties = n.properties
  | _, _ => False

/-- The contract preconditions of step.Apply for each operation. -/
def stepShapeOKB (s : PlanStep) : Bool :=
  match s.op, s.old, s.new with
  | StepOp.create, none, some n => !n.hasIDB
  | StepOp.delete, some o, none => o.hasIDB
  | StepOp.update, some o, some n => decide (o.ty = n.ty) && o.hasIDB
  | _, _, _ => false

/-- The package whose provider a step resolves: the new resource's package
for a create, the old resource's package for delete and update. -/
def stepPkg (s : PlanStep) : String :=
  match s.op, s.old, s.new with
  | StepOp.create, _, some n => n.ty.pkg
  | StepOp.delete, some o, _ => o.ty.pkg
  | StepOp.update, some o, _ => o.ty.pkg
  | _, _, _ => ""

/-! Theorems: order properties of the tie-break, then general lemmas about
the model, then one theorem per specification claim. -/

theorem lexLe_total : ∀ as bs, lexLe as bs = true ∨ lexLe bs as = true
  | [], _ => Or.inl rfl
  | _ :: _, [] => Or.inr rfl
  | a :: as, b :: bs => by
    rcases Nat.lt_trichotomy a.toNat b.toNat with h | h | h
    · left; simp [lexLe, h]
    · rcases lexLe_total as bs with ih | ih
      · left; simp [lexLe, h, ih]
      · right; simp [lexLe, h.symm, ih]
    · right; simp [lexLe, h]

theorem lexLe_trans : ∀ as bs cs, lexLe as bs = true → lexLe bs cs = true →
    lexLe as cs = true
  | [], _, _, _, _ => rfl
  | a :: as, b :: bs, [], h1, h2 => by simp [lexLe] at h2
  | a :: as, [], cs, h1, h2 => by simp [lexLe] at h1
  | a :: as, b :: bs, c :: cs, h1, h2 => by
    simp only [lexLe] at h1 h2 ⊢
    by_cases hab : a.toNat < b.toNat
    · by_cases hbc : b.toNat < c.toNat
      · rw [if_pos (by omega)]
      · by_cases hcb : c.toNat < b.toNat
        · rw [if_neg hbc, if_pos hcb] at h2; exact Bool.noConfusion h2
        · rw [if_pos (by omega)]
    · by_cases hba : b.toNat < a.toNat
      · rw [if_neg hab, if_pos hba] at h1; exact Bool.noConfusion h1
      · rw [if_neg hab, if_neg hba] at h1
        by_cases hbc : b.toNat < c.toNat
        · rw [if_pos (by omega)]
        · by_cases hcb : c.toNat < b.toNat
          · rw [if_neg hbc, if_pos hcb] at h2; exact Bool.noConfusion h2
          · rw [if_neg hbc, if_neg hcb] at h2
            rw [if_neg (by omega : ¬ a.toNat < c.toNat),
              if_neg (by omega : ¬ c.toNat < a.toNat)]
            exact lexLe_trans as bs cs h1 h2

theorem lexLe_antisymm : ∀ as bs, lexLe as bs = true → lexLe bs as = true →
    as = bs
  | [], [], _, _ => rfl
  | [], _ :: _, h1, h2 => by simp [lexLe] at h2
  | _ :: _, [], h1, h2 => by simp [lexLe] at h1
  | a :: as, b :: bs, h1, h2 => by
    simp only [lexLe] at h1 h2
    by_cases hab : a.toNat < b.toNat
    · rw [if_neg (by omega), if_pos hab] at h2; exact Bool.noConfusion h2
    · by_cases hba : b.toNat < a.toNat
      · rw [if_neg hab, if_pos hba] at h1; exact Bool.noConfusion h1
      · have ha : a = b := Char.eq_of_val_eq (UInt32.ext (by
          have e1 : a.toNat = a.val.toNat := rfl
          have e2 : b.toNat = b.val.toNat := rfl
          omega))
        subst ha
        rw [if_neg hab, if_neg hba] at h1 h2
        rw [lexLe_antisymm as bs h1 h2]

instance : IsTotal Moniker monLE :=
  ⟨fun a b => lexLe_total a.toList b.toList⟩

instance : IsTrans Moniker monLE :=
  ⟨fun a b c => lexLe_trans a.toList b.toList c.toList⟩

instance : IsAntisymm Moniker monLE :=
  ⟨fun a b h1 h2 => by
    have := lexLe_antisymm a.toList b.toList h1 h2
    cases a; cases b; simpa [String.toList] using congrArg String.mk this⟩

theorem lookupRes_moniker {l : List Resource} {m : Moniker} {r : Resource}
    (h : lookupRes l m = some r) : r.moniker = m := by
  have := List.find?_some h
  simpa using this

theorem lookupRes_mem {l : List Resource} {m : Moniker} {r : Resource}
    (h : lookupRes l m = some r) : r ∈ l := by
  have := List.mem_of_find?_eq_some h
  simpa using this

theorem lookupRes_isSome_iff {l : List Resource} {m : Moniker} :
    (lookupRes l m).isSome = true ↔ m ∈ l.map (·.moniker) := by
  unfold lookupRes
  rw [List.find?_isSome]
  constructor
  · rintro ⟨r, hr, hm⟩
    have : r.moniker = m := by simpa using hm
    exact this ▸ List.mem_map_of_mem _ (List.mem_reverse.mp hr)
  · intro hm
    rcases List.mem_map.mp hm with ⟨r, hr, hrm⟩
    exact ⟨r, List.mem_reverse.mpr hr, by simp [hrm]⟩

theorem mem_keysList {l : List Resource} {m : Moniker} :
    m ∈ keysList l ↔ m ∈ l.map (·.moniker) := by
  unfold keysList
  exact List.mem_dedup

mutual

theorem pvBeq_refl : ∀ v, pvBeq v v = true
  | .vNull => rfl
  | .vBool b => by simp [pvBeq]
  | .vNum n => by simp [pvBeq]
  | .vStr s => by simp [pvBeq]
  | .vRes m => by simp [pvBeq]
  | .vArr es => by simp [pvBeq, pvListBeq_refl es]
  | .vObj fs => by simp [pvBeq, pvFieldsBeq_refl fs]

theorem pvListBeq_refl : ∀ l, pvListBeq l l = true
  | [] => rfl
  | v :: vs => by simp [pvListBeq, pvBeq_refl v, pvListBeq_refl vs]

theorem pvFieldsBeq_refl : ∀ l, pvFieldsBeq l l = true
  | [] => rfl
  | (k, v) :: fs => by simp [pvFieldsBeq, pvBeq_refl v, pvFieldsBeq_refl fs]

end

theorem bagBeq_refl (b : PropertyBag) : bagBeq b b = true := pvFieldsBeq_refl b

theorem topsortReady_subset {edges : List (Moniker × Moniker)}
    {remaining : List Moniker} {r : Moniker}
    (h : r ∈ topsortReady edges remaining) : r ∈ remaining :=
  List.mem_of_mem_filter h

theorem kahnSort_perm {edges : List (Moniker × Moniker)} :
    ∀ fuel remaining acc out,
      kahnSort edges fuel remaining acc = Except.ok out →
      out.Perm (remaining ++ acc.reverse)
  | 0, remaining, acc, out => by
    intro h
    unfold kahnSort at h
    by_cases he : remaining.isEmpty
    · rw [if_pos he] at h
      cases h
      simp [List.isEmpty_iff.mp he]
    · rw [if_neg he] at h
      cases h
  | fuel + 1, remaining, acc, out => by
    intro h
    unfold kahnSort at h
    by_cases he : remaining.isEmpty
    · rw [if_pos he] at h
      cases h
      simp [List.isEmpty_iff.mp he]
    · rw [if_neg he] at h
      cases hready : topsortReady edges remaining with
      | nil => rw [hready] at h; cases h
      | cons r rest =>
        rw [hready] at h
        have hr : r ∈ remaining :=
          topsortReady_subset (hready ▸ List.mem_cons_self r rest)
        have ih := kahnSort_perm fuel (remaining.erase r) (r :: acc) out h
        have hperm : (remaining.erase r ++ (r :: acc).reverse).Perm
            (remaining ++ acc.reverse) := by
          have h1 : (r :: acc).reverse = acc.reverse ++ [r] := by simp
          rw [h1]
          have p1 : (remaining.erase r ++ (acc.reverse ++ [r])).Perm
              ((remaining.erase r ++ [r]) ++ acc.reverse) := by
            rw [List.append_assoc]
            exact List.Perm.append_left _ List.perm_append_comm
          have p2 : ((remaining.erase r ++ [r]) ++ acc.reverse).Perm
              (remaining ++ acc.reverse) := by
            apply List.Perm.append_right
            exact List.perm_append_comm.trans (List.perm_cons_erase hr).symm
          exact p1.trans p2
        exact ih.trans hperm

theorem sortMonikers_perm (l : List Moniker) : (sortMonikers l).Perm l :=
  List.perm_insertionSort monLE l

theorem topsortModel_perm {vertices : List Moniker}
    {edges : List (Moniker × Moniker)} {out : List Moniker}
    (h : topsortModel vertices edges = Except.ok out) : out.Perm vertices := by
  unfold topsortModel at h
  have h1 := @kahnSort_perm edges _ _ _ _ h
  have h2 : out.Perm (sortMonikers vertices) := by simpa using h1
  exact h2.trans (sortMonikers_perm vertices)

theorem vsMap_self_none (l : List Resource) (m : Moniker) : vsMap l l m = none := by
  unfold vsMap
  cases h : lookupRes l m with
  | none => rfl
  | some o => simp [bagBeq_refl]

theorem typeMismatchExistsB_self (l : List Resource) :
    typeMismatchExistsB l l = false := by
  unfold typeMismatchExistsB
  rw [List.any_eq_false]
  intro m _
  cases h : lookupRes l m with
  | none => simp
  | some o => simp

theorem edgesForOldRes_self (l : List Resource) (res : Resource) :
    edgesForOldRes l l res = Except.ok [] := by
  unfold edgesForOldRes
  have hdel : isDeleteResB l l res = false := by
    unfold isDeleteResB
    cases h : lookupRes l res.moniker <;> simp
  rw [hdel]
  have hupd : updateTargetOf l l res = none := by
    unfold updateTargetOf
    cases h : lookupRes l res.moniker with
    | none => rfl
    | some o => simp [bagBeq_refl]
  simp [hupd]

theorem edgesForNewRes_self (l : List Resource) (res : Resource) :
    edgesForNewRes l l res = Except.ok [] := by
  unfold edgesForNewRes
  have hcre : isCreateResB l l res = false := by
    unfold isCreateResB
    cases h : lookupRes l res.moniker <;> simp
  simp [hcre]

theorem edgesList_const_ok {f : Resource → Except ContractFailure (List (Moniker × Moniker))}
    (hf : ∀ r, f r = Except.ok []) : ∀ l, edgesList f l = Except.ok []
  | [] => rfl
  | r :: rs => by
    unfold edgesList
    rw [hf r, edgesList_const_ok hf rs]
    rfl

theorem planEdges_self (l : List Resource) : planEdges l l = Except.ok [] := by
  unfold planEdges
  rw [edgesList_const_ok (edgesForOldRes_self l) l,
    edgesList_const_ok (edgesForNewRes_self l) l]
  rfl

theorem activeKeys_self (l : List Resource) : activeKeys l l = [] := by
  unfold activeKeys
  rw [List.filter_eq_nil_iff]
  intro m _
  simp [vsMap_self_none]

/-- C8: constructing a plan from two structurally identical optional
snapshots (in particular from two absent snapshots) succeeds and yields an
empty plan: no step chain and Empty() true. -/
theorem identical_snapshots_empty_plan (os : Option Snapshot) :
    ∃ chain, newPlan os os = Except.ok chain ∧ planEmptyB chain = true := by
  refine ⟨[], ?_, rfl⟩
  have htc : typeCheck (resOf os) (resOf os) = Except.ok () := by
    unfold typeCheck
    rw [typeMismatchExistsB_self]
    rfl
  simp only [newPlan, newPlanOrd, htc, planEdges_self, activeKeys_self]
  rfl

/-- C3 (counterexample): on a type mismatch the planner does not return a
TypeMismatch planning error identifying the moniker - it aborts through a
bare contract.Assert whose failure carries an empty message, and the very
same failure value results from a mismatch at a different moniker, so the
error identifies nothing. -/
theorem type_mismatch_assert_cx :
    newPlan (some [resFix "A" []]) (some [resFixY "A"]) =
      Except.error (ContractFailure.assertionFailure "") ∧
    newPlan (some [resFix "B" []]) (some [resFixY "B"]) =
      Except.error (ContractFailure.assertionFailure "") :=
  ⟨rfl, rfl⟩

/-- C3 (amended): when a moniker appears in both snapshots with different
resource types, plan construction aborts via an assertion failure (an empty
message, no moniker named) and returns no plan. -/
theorem type_mismatch_aborts (old new : Option Snapshot)
    (h : typeMismatchExistsB (resOf old) (resOf new) = true) :
    newPlan old new = Except.error (ContractFailure.assertionFailure "") := by
  have htc : typeCheck (resOf old) (resOf new) =
      Except.error (ContractFailure.assertionFailure "") := by
    unfold typeCheck
    rw [h]
    rfl
  simp only [newPlan, newPlanOrd, htc]

/-- C3 (witness): the amended theorem applied at the concrete mismatch. -/
theorem type_mismatch_aborts_witness :
    typeMismatchExistsB (resOf (some [resFix "A" []])) (resOf (some [resFixY "A"])) = true ∧
    newPlan (some [resFix "A" []]) (some [resFixY "A"]) =
      Except.error (ContractFailure.assertionFailure "") :=
  ⟨by decide, type_mismatch_aborts (some [resFix "A" []]) (some [resFixY "A"]) (by decide)⟩

/-- C1 (counterexample): on a cyclic dependency graph the planner does not
report a CycleDetected planning error naming the involved monikers - it
aborts through contract.Assertf with a fixed message that names neither
involved moniker. -/
theorem cycle_reported_as_assert_cx :
    newPlan none (some [resFix "cycA" (refBag "cycB"), resFix "cycB" (refBag "cycA")]) =
      Except.error (ContractFailure.assertionFailure topsortAssertMsg) ∧
    ¬ "cycA".toList <:+: topsortAssertMsg.toList ∧
    ¬ "cycB".toList <:+: topsortAssertMsg.toList :=
  ⟨rfl, by decide, by decide⟩

/-- C1 (amended): whenever the diff and edge construction succeed and the
derived dependency graph has a cycle (the modelled sequencer reports one),
plan construction aborts via the Assertf around the Topsort call - a fixed
message naming no monikers - and returns no plan, not even a partial one. -/
theorem cycle_aborts_construction (old new : Option Snapshot)
    (es : List (Moniker × Moniker)) (cyc : List Moniker)
    (h1 : typeCheck (resOf old) (resOf new) = Except.ok ())
    (h2 : planEdges (resOf old) (resOf new) = Except.ok es)
    (h3 : topsortModel (activeKeys (resOf old) (resOf new)) es = Except.error cyc) :
    newPlan old new = Except.error (ContractFailure.assertionFailure topsortAssertMsg) := by
  simp only [newPlan, newPlanOrd, h1, h2, h3]

/-- C1 (witness): the amended theorem applied at the two-cycle input. -/
theorem cycle_aborts_construction_witness :
    typeCheck (resOf (none : Option Snapshot))
        (resOf (some [resFix "cycA" (refBag "cycB"), resFix "cycB" (refBag "cycA")])) =
      Except.ok () ∧
    planEdges (resOf (none : Option Snapshot))
        (resOf (some [resFix "cycA" (refBag "cycB"), resFix "cycB" (refBag "cycA")])) =
      Except.ok [("cycA", "cycB"), ("cycB", "cycA")] ∧
    topsortModel
        (activeKeys (resOf (none : Option Snapshot))
          (resOf (some [resFix "cycA" (refBag "cycB"), resFix "cycB" (refBag "cycA")])))
        [("cycA", "cycB"), ("cycB", "cycA")] =
      Except.error ["cycA", "cycB"] ∧
    newPlan none (some [resFix "cycA" (refBag "cycB"), resFix "cycB" (refBag "cycA")]) =
      Except.error (ContractFailure.assertionFailure topsortAssertMsg) :=
  ⟨rfl, rfl, rfl,
    cycle_aborts_construction none
      (some [resFix "cycA" (refBag "cycB"), resFix "cycB" (refBag "cycA")])
      [("cycA", "cycB"), ("cycB", "cycA")] ["cycA", "cycB"] rfl rfl rfl⟩

theorem collectRefEdges_error_of {vs : Moniker → Option PlanStep}
    {mk : Moniker → Moniker × Moniker} :
    ∀ refs, (∃ ref ∈ refs, (vs ref).isNone = true) →
      collectRefEdges vs mk refs = Except.error (ContractFailure.assertionFailure "")
  | [], h => by simp at h
  | a :: rest, h => by
    unfold collectRefEdges
    cases hva : vs a with
    | none => rfl
    | some s =>
      rcases h with ⟨ref, hmem, hnone⟩
      rcases List.mem_cons.mp hmem with heq | hmem2
      · subst heq
        rw [hva] at hnone
        simp at hnone
      · rw [collectRefEdges_error_of rest ⟨ref, hmem2, hnone⟩]

theorem collectRefEdges_error_shape {vs : Moniker → Option PlanStep}
    {mk : Moniker → Moniker × Moniker} :
    ∀ refs e, collectRefEdges vs mk refs = Except.error e →
      e = ContractFailure.assertionFailure ""
  | [], e, h => by cases h
  | a :: rest, e, h => by
    unfold collectRefEdges at h
    cases hva : vs a <;> rw [hva] at h
    · cases h
      rfl
    · cases hrec : collectRefEdges vs mk rest <;> rw [hrec] at h
      · cases h
        exact collectRefEdges_error_shape rest _ hrec
      · cases h

theorem edgesForOldRes_error_of {oldL newL : List Resource} {res : Resource}
    (h : oldResBadB oldL newL res = true) :
    edgesForOldRes oldL newL res = Except.error (ContractFailure.assertionFailure "") := by
  unfold oldResBadB at h
  rw [Bool.or_eq_true] at h
  unfold edgesForOldRes
  rcases h with hdel | hupd
  · rw [Bool.and_eq_true] at hdel
    rcases hdel with ⟨hdel, hbad⟩
    rw [List.any_eq_true] at hbad
    rcases hbad with ⟨ref, hmem, hnone⟩
    rw [hdel, if_pos rfl]
    cases hv : vsMap oldL newL res.moniker with
    | none => rfl
    | some s => exact collectRefEdges_error_of _ ⟨ref, hmem, hnone⟩
  · cases ht : updateTargetOf oldL newL res with
    | none =>
      rw [ht] at hupd
      simp at hupd
    | some t =>
      rw [ht] at hupd
      simp only [Option.map_some, Option.getD_some, List.any_eq_true] at hupd
      rcases hupd with ⟨ref, hmem, hnone⟩
      have hnew : (lookupRes newL res.moniker).isNone = false := by
        unfold updateTargetOf at ht
        cases h1 : lookupRes oldL res.moniker <;> cases h2 : lookupRes newL res.moniker <;>
          rw [h1, h2] at ht <;> simp_all
      have hdel2 : isDeleteResB oldL newL res = false := by
        unfold isDeleteResB
        rw [hnew]
        rfl
      rw [hdel2, if_neg (by simp)]
      cases hv : vsMap oldL newL res.moniker with
      | none => rfl
      | some s => exact collectRefEdges_error_of _ ⟨ref, hmem, by simpa using hnone⟩

theorem edgesForNewRes_error_of {oldL newL : List Resource} {res : Resource}
    (h : newResBadB oldL newL res = true) :
    edgesForNewRes oldL newL res = Except.error (ContractFailure.assertionFailure "") := by
  unfold newResBadB at h
  rw [Bool.and_eq_true] at h
  rcases h with ⟨hcre, hbad⟩
  rw [List.any_eq_true] at hbad
  rcases hbad with ⟨ref, hmem, hnone⟩
  unfold edgesForNewRes
  rw [hcre, if_pos rfl]
  cases hv : vsMap oldL newL res.moniker with
  | none => rfl
  | some s => exact collectRefEdges_error_of _ ⟨ref, hmem, hnone⟩

theorem edgesForOldRes_error_shape {oldL newL : List Resource} {res : Resource} {e}
    (h : edgesForOldRes oldL newL res = Except.error e) :
    e = ContractFailure.assertionFailure "" := by
  unfold edgesForOldRes at h
  by_cases hdel : isDeleteResB oldL newL res <;> simp only [hdel, if_true, if_false] at h
  · cases hv : vsMap oldL newL res.moniker <;> rw [hv] at h
    · cases h
      rfl
    · exact collectRefEdges_error_shape _ _ h
  · cases ht : updateTargetOf oldL newL res <;> rw [ht] at h
    · cases h
    · cases hv : vsMap oldL newL res.moniker <;> rw [hv] at h
      · cases h
        rfl
      · exact collectRefEdges_error_shape _ _ h

theorem edgesForNewRes_error_shape {oldL newL : List Resource} {res : Resource} {e}
    (h : edgesForNewRes oldL newL res = Except.error e) :
    e = ContractFailure.assertionFailure "" := by
  unfold edgesForNewRes at h
  by_cases hcre : isCreateResB oldL newL res <;> simp only [hcre, if_true, if_false] at h
  · cases hv : vsMap oldL newL res.moniker <;> rw [hv] at h
    · cases h
      rfl
    · exact collectRefEdges_error_shape _ _ h
  · cases h

theorem edgesList_error_of {f : Resource → Except ContractFailure (List (Moniker × Moniker))}
    (hsh : ∀ r e, f r = Except.error e → e = ContractFailure.assertionFailure "") :
    ∀ l, (∃ r ∈ l, f r = Except.error (ContractFailure.assertionFailure "")) →
      edgesList f l = Except.error (ContractFailure.assertionFailure "")
  | [], h => by simp at h
  | r :: rs, h => by
    unfold edgesList
    cases hfr : f r with
    | error e => rw [hsh r e hfr]
    | ok es =>
      rcases h with ⟨r2, hmem, herr⟩
      rcases List.mem_cons.mp hmem with heq | hmem2
      · subst heq
        rw [hfr] at herr
        cases herr
      · rw [edgesList_error_of hsh rs ⟨r2, hmem2, herr⟩]

theorem edgesList_error_shape {f : Resource → Except ContractFailure (List (Moniker × Moniker))}
    (hsh : ∀ r e, f r = Except.error e → e = ContractFailure.assertionFailure "") :
    ∀ l e, edgesList f l = Except.error e → e = ContractFailure.assertionFailure ""
  | [], e, h => by cases h
  | r :: rs, e, h => by
    unfold edgesList at h
    cases hfr : f r <;> rw [hfr] at h
    · cases h
      exact hsh r _ hfr
    · cases hrec : edgesList f rs <;> rw [hrec] at h
      · cases h
        exact edgesList_error_shape hsh rs _ hrec
      · cases h

theorem planEdges_error_of {oldL newL : List Resource}
    (h : badRefExistsB oldL newL = true) :
    planEdges oldL newL = Except.error (ContractFailure.assertionFailure "") := by
  unfold badRefExistsB at h
  rw [Bool.or_eq_true, List.any_eq_true, List.any_eq_true] at h
  unfold planEdges
  rcases h with ⟨r, hmem, hbad⟩ | ⟨r, hmem, hbad⟩
  · rw [@edgesList_error_of (edgesForOldRes oldL newL)
      (fun r2 e2 he => edgesForOldRes_error_shape he) oldL
      ⟨r, hmem, edgesForOldRes_error_of hbad⟩]
  · cases h1 : edgesList (edgesForOldRes oldL newL) oldL with
    | error e =>
      rw [@edgesList_error_shape (edgesForOldRes oldL newL)
        (fun r2 e2 he => edgesForOldRes_error_shape he) oldL e h1]
    | ok es =>
      rw [@edgesList_error_of (edgesForNewRes oldL newL)
        (fun r2 e2 he => edgesForNewRes_error_shape he) newL
        ⟨r, hmem, edgesForNewRes_error_of hbad⟩]

/-- C2 (counterexample): a create step whose new properties reference a
noop moniker (present in both snapshots with equal bags, hence vertex-less)
does not leave plan construction successful with the edge silently omitted:
construction aborts through the contract.Assert at the vertex dereference. -/
theorem missing_vertex_fails_cx :
    newPlan (some [resFix "A" []]) (some [resFix "A" [], resFix "B" (refBag "A")]) =
      Except.error (ContractFailure.assertionFailure "") :=
  rfl

/-- C2 (amended): whenever the diff phase passes the type assertion and an
emitted create or update step's new properties reference a vertex-less
moniker, or a recorded dependent of a deleted resource has no vertex, plan
construction does not succeed - it aborts via a contract.Assert (empty
message); the edge is not silently omitted. -/
theorem missing_vertex_aborts (old new : Option Snapshot)
    (h1 : typeMismatchExistsB (resOf old) (resOf new) = false)
    (h2 : badRefExistsB (resOf old) (resOf new) = true) :
    newPlan old new = Except.error (ContractFailure.assertionFailure "") := by
  have htc : typeCheck (resOf old) (resOf new) = Except.ok () := by
    unfold typeCheck
    rw [h1]
    rfl
  simp only [newPlan, newPlanOrd, htc, planEdges_error_of h2]

/-- C2 (witness): the amended theorem applied at the create-references-noop
input. -/
theorem missing_vertex_aborts_witness :
    typeMismatchExistsB (resOf (some [resFix "A" []]))
        (resOf (some [resFix "A" [], resFix "B" (refBag "A")])) = false ∧
    badRefExistsB (resOf (some [resFix "A" []]))
        (resOf (some [resFix "A" [], resFix "B" (refBag "A")])) = true ∧
    newPlan (some [resFix "A" []]) (some [resFix "A" [], resFix "B" (refBag "A")]) =
      Except.error (ContractFailure.assertionFailure "") :=
  ⟨by decide, by decide,
    missing_vertex_aborts (some [resFix "A" []])
      (some [resFix "A" [], resFix "B" (refBag "A")]) (by decide) (by decide)⟩

theorem newPlanOrd_ok_elim {old new : Option Snapshot} {vsOrder : List Moniker}
    {chain : List PlanStep}
    (h : newPlanOrd old new vsOrder = Except.ok chain) :
    ∃ es order, planEdges (resOf old) (resOf new) = Except.ok es ∧
      topsortModel vsOrder es = Except.ok order ∧
      chain = order.filterMap (vsMap (resOf old) (resOf new)) := by
  simp only [newPlanOrd] at h
  cases h1 : typeCheck (resOf old) (resOf new) with
  | error e => simp only [h1] at h; cases h
  | ok u =>
    simp only [h1] at h
    cases h2 : planEdges (resOf old) (resOf new) with
    | error e => simp only [h2] at h; cases h
    | ok es =>
      simp only [h2] at h
      cases h3 : topsortModel vsOrder es with
      | error c => simp only [h3] at h; cases h
      | ok order =>
        simp only [h3] at h
        injection h with h4
        exact ⟨es, order, rfl, h3, h4.symm⟩

theorem vsMap_some_props {oldL newL : List Resource} {m : Moniker} {s : PlanStep}
    (h : vsMap oldL newL m = some s) :
    stepMoniker s = m ∧ classToOp (classify oldL newL m) = some s.op := by
  unfold vsMap at h
  unfold classify
  cases h1 : lookupRes oldL m <;> cases h2 : lookupRes newL m <;> rw [h1, h2] at h
  · cases h
  · rename_i n
    injection h with h3
    subst h3
    exact ⟨lookupRes_moniker h2, rfl⟩
  · rename_i o
    injection h with h3
    subst h3
    exact ⟨lookupRes_moniker h1, rfl⟩
  · rename_i o n
    have h5 : (if bagBeq n.properties o.properties = true then none
        else some (newUpdateStep o n)) = some s := h
    by_cases hb : bagBeq n.properties o.properties = true
    · rw [if_pos hb] at h5
      cases h5
    · rw [if_neg hb] at h5
      injection h5 with h3
      subst h3
      refine ⟨lookupRes_moniker h2, ?_⟩
      show classToOp (if bagBeq n.properties o.properties = true then DiffClass.noop
        else DiffClass.update) = some (newUpdateStep o n).op
      rw [if_neg hb]
      rfl

theorem vsMap_isSome_iff {oldL newL : List Resource} {m : Moniker} :
    (vsMap oldL newL m).isSome = true ↔
      actionableB (classify oldL newL m) = true := by
  unfold vsMap classify
  cases h1 : lookupRes oldL m <;> cases h2 : lookupRes newL m <;> simp [actionableB]
  rename_i o n
  by_cases hb : bagBeq n.properties o.properties <;> simp [hb, actionableB]

theorem mem_activeKeys {oldL newL : List Resource} {m : Moniker} :
    m ∈ activeKeys oldL newL ↔ (vsMap oldL newL m).isSome = true := by
  unfold activeKeys
  constructor
  · intro h
    exact (List.mem_filter.mp h).2
  · intro h
    refine List.mem_filter.mpr ⟨List.mem_dedup.mpr ?_, h⟩
    unfold vsMap at h
    cases h1 : lookupRes oldL m <;> cases h2 : lookupRes newL m <;> rw [h1, h2] at h
    · simp at h
    · refine List.mem_append.mpr (Or.inr ?_)
      exact mem_keysList.mpr (lookupRes_isSome_iff.mp (by rw [h2]; rfl))
    · refine List.mem_append.mpr (Or.inl ?_)
      exact mem_keysList.mpr (lookupRes_isSome_iff.mp (by rw [h1]; rfl))
    · refine List.mem_append.mpr (Or.inl ?_)
      exact mem_keysList.mpr (lookupRes_isSome_iff.mp (by rw [h1]; rfl))

theorem activeKeys_nodup (oldL newL : List Resource) :
    (activeKeys oldL newL).Nodup :=
  List.Nodup.filter _ (List.nodup_dedup _)

theorem chain_countP {oldL newL : List Resource} :
    ∀ order : List Moniker,
      (∀ x ∈ order, (vsMap oldL newL x).isSome = true) →
      ∀ m, ((order.filterMap (vsMap oldL newL)).countP (fun s => stepMoniker s == m)) =
        order.count m
  | [], _, m => rfl
  | x :: xs, hall, m => by
    have hx := hall x (List.mem_cons_self x xs)
    cases hs : vsMap oldL newL x with
    | none => rw [hs] at hx; simp at hx
    | some s =>
      have hmon := (vsMap_some_props hs).1
      have ih := chain_countP xs (fun y hy => hall y (List.mem_cons_of_mem x hy)) m
      simp only [List.filterMap_cons, hs, List.countP_cons, List.count_cons, ih, hmon]

/-- C4: whenever plan construction succeeds, every moniker present in
either snapshot is classified as exactly one of delete, create, update or
noop; the chain carries exactly one step for each delete, create and update
moniker (counted by step moniker) and no step for a noop or absent moniker;
and each step's operation agrees with its moniker's classification. -/
theorem newPlan_classification (old new : Option Snapshot) (chain : List PlanStep)
    (h : newPlan old new = Except.ok chain) :
    (∀ m : Moniker,
      ((lookupRes (resOf old) m).isSome || (lookupRes (resOf new) m).isSome) = true →
        classify (resOf old) (resOf new) m ≠ DiffClass.absent) ∧
    (∀ m : Moniker, chain.countP (fun s => stepMoniker s == m) =
        if actionableB (classify (resOf old) (resOf new) m) then 1 else 0) ∧
    (∀ s ∈ chain, classToOp (classify (resOf old) (resOf new) (stepMoniker s)) = some s.op) := by
  obtain ⟨es, order, h2, h3, h4⟩ := newPlanOrd_ok_elim h
  have hperm : order.Perm (activeKeys (resOf old) (resOf new)) := topsortModel_perm h3
  have hall : ∀ x ∈ order, (vsMap (resOf old) (resOf new) x).isSome = true := by
    intro x hx
    exact mem_activeKeys.mp (hperm.mem_iff.mp hx)
  refine ⟨?_, ?_, ?_⟩
  · intro m hm
    unfold classify
    cases hl1 : lookupRes (resOf old) m <;> cases hl2 : lookupRes (resOf new) m
    · rw [hl1, hl2] at hm
      simp at hm
    · exact fun c => DiffClass.noConfusion c
    · exact fun c => DiffClass.noConfusion c
    · rename_i o n
      have hne : (if bagBeq n.properties o.properties = true then DiffClass.noop
          else DiffClass.update) ≠ DiffClass.absent := by
        by_cases hb : bagBeq n.properties o.properties = true
        · rw [if_pos hb]
          exact fun c => DiffClass.noConfusion c
        · rw [if_neg hb]
          exact fun c => DiffClass.noConfusion c
      exact hne
  · intro m
    rw [h4, chain_countP order hall m, hperm.count_eq m]
    by_cases hmem : m ∈ activeKeys (resOf old) (resOf new)
    · rw [List.count_eq_one_of_mem (activeKeys_nodup _ _) hmem,
        if_pos (vsMap_isSome_iff.mp (mem_activeKeys.mp hmem))]
    · rw [List.count_eq_zero_of_not_mem hmem]
      have hfalse : ¬ actionableB (classify (resOf old) (resOf new) m) = true := by
        intro ha
        exact hmem (mem_activeKeys.mpr (vsMap_isSome_iff.mpr ha))
      rw [if_neg hfalse]
  · intro s hs
    rw [h4] at hs
    rcases List.mem_filterMap.mp hs with ⟨x, hx, hvs⟩
    obtain ⟨hmon, hop⟩ := vsMap_some_props hvs
    rw [hmon]
    exact hop

/-- C4 (witness): the classification theorem applied at a plan having one
delete, one create, one update and one noop. -/
theorem newPlan_classification_witness :
    newPlan (some [resFix "D" [], resFix "U" [("v", PropertyValue.vNum 1)], resFix "N" []])
        (some [resFix "U" [("v", PropertyValue.vNum 2)], resFix "N" [], resFix "C" []]) =
      Except.ok [newCreateStep (resFix "C" []), newDeleteStep (resFix "D" []),
        newUpdateStep (resFix "U" [("v", PropertyValue.vNum 1)])
          (resFix "U" [("v", PropertyValue.vNum 2)])] ∧
    ([newCreateStep (resFix "C" []), newDeleteStep (resFix "D" []),
        newUpdateStep (resFix "U" [("v", PropertyValue.vNum 1)])
          (resFix "U" [("v", PropertyValue.vNum 2)])].countP
      (fun s => stepMoniker s == "U")) = 1 ∧
    classify (resOf (some [resFix "D" [], resFix "U" [("v", PropertyValue.vNum 1)], resFix "N" []]))
      (resOf (some [resFix "U" [("v", PropertyValue.vNum 2)], resFix "N" [], resFix "C" []])) "N" =
      DiffClass.noop ∧
    ([newCreateStep (resFix "C" []), newDeleteStep (resFix "D" []),
        newUpdateStep (resFix "U" [("v", PropertyValue.vNum 1)])
          (resFix "U" [("v", PropertyValue.vNum 2)])].countP
      (fun s => stepMoniker s == "N")) = 0 := by
  have happ := newPlan_classification
    (some [resFix "D" [], resFix "U" [("v", PropertyValue.vNum 1)], resFix "N" []])
    (some [resFix "U" [("v", PropertyValue.vNum 2)], resFix "N" [], resFix "C" []])
    [newCreateStep (resFix "C" []), newDeleteStep (resFix "D" []),
      newUpdateStep (resFix "U" [("v", PropertyValue.vNum 1)])
        (resFix "U" [("v", PropertyValue.vNum 2)])] rfl
  refine ⟨rfl, ?_, rfl, ?_⟩
  · rw [happ.2.1 "U"]
    rfl
  · rw [happ.2.1 "N"]
    rfl

/-- C7: plan construction is reproducible - with the sequencer modelled per
the spec (deterministic moniker-lexicographic tie-break), the produced step
chain does not depend on the (unspecified) order in which the Go map of
vertices is enumerated: any two enumeration orders of the vertex set yield
identical results on identical input snapshots. -/
theorem plan_construction_deterministic (old new : Option Snapshot)
    (pi1 pi2 : List Moniker)
    (h1 : pi1.Perm (activeKeys (resOf old) (resOf new)))
    (h2 : pi2.Perm (activeKeys (resOf old) (resOf new))) :
    newPlanOrd old new pi1 = newPlanOrd old new pi2 := by
  have hp : pi1.Perm pi2 := h1.trans h2.symm
  have hsort : sortMonikers pi1 = sortMonikers pi2 :=
    List.eq_of_perm_of_sorted
      ((sortMonikers_perm pi1).trans (hp.trans (sortMonikers_perm pi2).symm))
      (List.sorted_insertionSort monLE pi1) (List.sorted_insertionSort monLE pi2)
  have htop : ∀ es, topsortModel pi1 es = topsortModel pi2 es := by
    intro es
    unfold topsortModel
    rw [hsort]
  simp only [newPlanOrd, htop]

/-- C7 (witness): the determinism theorem applied at two enumeration orders
of a two-vertex plan. -/
theorem plan_construction_deterministic_witness :
    (["A", "B"] : List Moniker).Perm
      (activeKeys (resOf (none : Option Snapshot))
        (resOf (some [resFix "A" [], resFix "B" []]))) ∧
    (["B", "A"] : List Moniker).Perm
      (activeKeys (resOf (none : Option Snapshot))
        (resOf (some [resFix "A" [], resFix "B" []]))) ∧
    newPlanOrd none (some [resFix "A" [], resFix "B" []]) ["A", "B"] =
      newPlanOrd none (some [resFix "A" [], resFix "B" []]) ["B", "A"] :=
  ⟨by decide, by decide,
    plan_construction_deterministic none (some [resFix "A" [], resFix "B" []])
      ["A", "B"] ["B", "A"] (by decide) (by decide)⟩

theorem stepApply_step_cases (ctx : PlanContext) (s : PlanStep) :
    (stepApply ctx s).2.1 = s ∨
      (stepApply ctx s).1 = StepOutcome.done none ResourceState.ok := by
  obtain ⟨op, sold, snew⟩ := s
  cases op <;> cases sold <;> cases snew <;> simp only [stepApply]
  all_goals repeat' split
  all_goals simp

theorem stepApply_err_unchanged (ctx : PlanContext) (s : PlanStep) (e : String)
    (rst : ResourceState) (h : (stepApply ctx s).1 = StepOutcome.done (some e) rst) :
    (stepApply ctx s).2.1 = s := by
  rcases stepApply_step_cases ctx s with hc | hc
  · exact hc
  · rw [h] at hc
    injection hc with h1 h2
    cases h1

/-- C5: Apply walks the chain in order: when no step panics, either some
first step returns a non-nil error - then Apply returns that error, that
step and the provider's resource state, having attempted exactly the steps
up to and including it - or every step succeeds and Apply returns the
completed outcome (nil, nil, StateOK) having attempted every step. -/
theorem plan_apply_first_error (ctx : PlanContext) (steps : List PlanStep)
    (hnp : ∀ s ∈ steps, isPanicB (stepApply ctx s).1 = false) :
    (∃ pre s post e rst, steps = pre ++ s :: post ∧
      (∀ t ∈ pre, stepFail ctx t = none) ∧
      stepFail ctx s = some (e, rst) ∧
      planApply ctx steps = (ApplyOutcome.halted e s rst, pre ++ [s])) ∨
    ((∀ t ∈ steps, stepFail ctx t = none) ∧
      planApply ctx steps = (ApplyOutcome.completed, steps)) := by
  induction steps with
  | nil => exact Or.inr ⟨fun t ht => absurd ht (List.not_mem_nil t), rfl⟩
  | cons s rest ih =>
    have hs := hnp s (List.mem_cons_self s rest)
    cases ho : (stepApply ctx s).1 with
    | panicked f =>
      rw [ho] at hs
      simp [isPanicB] at hs
    | done oerr rst =>
      cases oerr with
      | some e =>
        refine Or.inl ⟨[], s, rest, e, rst, rfl, ?_, ?_, ?_⟩
        · intro t ht
          exact absurd ht (List.not_mem_nil t)
        · unfold stepFail
          rw [ho]
        · simp only [planApply, ho, stepApply_err_unchanged ctx s e rst ho]
          rfl
      | none =>
        have ih2 := ih (fun t ht => hnp t (List.mem_cons_of_mem s ht))
        rcases ih2 with ⟨pre, s2, post, e, rst2, hsteps, hpre, hfail, happly⟩ | ⟨hall, happly⟩
        · refine Or.inl ⟨s :: pre, s2, post, e, rst2, by rw [hsteps]; rfl, ?_, hfail, ?_⟩
          · intro t ht
            rcases List.mem_cons.mp ht with heq | hmem
            · subst heq
              unfold stepFail
              rw [ho]
            · exact hpre t hmem
          · simp only [planApply, ho, happly]
            rfl
        · refine Or.inr ⟨?_, ?_⟩
          · intro t ht
            rcases List.mem_cons.mp ht with heq | hmem
            · subst heq
              unfold stepFail
              rw [ho]
            · exact hall t hmem
          · simp only [planApply, ho, happly]

/-- C5 (witness): the halting theorem applied at a three-step plan whose
second step fails - the third step is not attempted. -/
theorem plan_apply_first_error_witness :
    (∀ s ∈ [newCreateStep (resFix "A" []),
        newCreateStep (resFail "F"),
        newCreateStep (resFix "B" [])], isPanicB (stepApply ctxFix s).1 = false) ∧
    ((∃ pre s post e rst,
        [newCreateStep (resFix "A" []),
          newCreateStep (resFail "F"),
          newCreateStep (resFix "B" [])] = pre ++ s :: post ∧
        (∀ t ∈ pre, stepFail ctxFix t = none) ∧
        stepFail ctxFix s = some (e, rst) ∧
        planApply ctxFix [newCreateStep (resFix "A" []),
          newCreateStep (resFail "F"),
          newCreateStep (resFix "B" [])] = (ApplyOutcome.halted e s rst, pre ++ [s])) ∨
      ((∀ t ∈ [newCreateStep (resFix "A" []),
          newCreateStep (resFail "F"),
          newCreateStep (resFix "B" [])], stepFail ctxFix t = none) ∧
        planApply ctxFix [newCreateStep (resFix "A" []),
          newCreateStep (resFail "F"),
          newCreateStep (resFix "B" [])] =
          (ApplyOutcome.completed, [newCreateStep (resFix "A" []),
            newCreateStep (resFail "F"),
            newCreateStep (resFix "B" [])]))) :=
  ⟨by decide,
    plan_apply_first_error ctxFix
      [newCreateStep (resFix "A" []),
        newCreateStep (resFail "F"),
        newCreateStep (resFix "B" [])] (by decide)⟩

/-- C6: a successful update step adopts the provider-returned ID exactly
when it is non-empty (a replacement); when the provider returns the empty
ID the new resource is left unchanged (in-place mutation). -/
theorem update_replacement_id (ctx : PlanContext) (s : PlanStep) (o n : Resource)
    (prov : Provider)
    (hop : s.op = StepOp.update) (ho : s.old = some o) (hn : s.new = some n)
    (hty : o.ty = n.ty) (hid : o.hasIDB = true)
    (hprov : ctx o.ty.pkg = Except.ok prov)
    (hsucc : (prov.update o.rid o.ty o.properties n.properties).err = none) :
    (stepApply ctx s).1 = StepOutcome.done none ResourceState.ok ∧
    (stepApply ctx s).2.1.new =
      some (if (prov.update o.rid o.ty o.properties n.properties).retID = "" then n
        else { n with rid := (prov.update o.rid o.ty o.properties n.properties).retID }) := by
  obtain ⟨op, sold, snew⟩ := s
  simp only at hop ho hn
  subst hop
  subst ho
  subst hn
  have hd : decide (o.ty = n.ty) = true := decide_eq_true hty
  by_cases hr : (prov.update o.rid o.ty o.properties n.properties).retID = "" <;>
    simp [stepApply, hd, hid, hprov, hsucc, hr]

/-- C6 (witness): the replacement theorem applied at an update whose
provider returns the replacement ID A-2; the new resource adopts it in
place of the old ID. -/
theorem update_replacement_id_witness :
    ctxFix (resFixID "A" "old-id" [("v", PropertyValue.vNum 1)]).ty.pkg =
      Except.ok provFix ∧
    (provFix.update "old-id" (resFixID "A" "old-id" [("v", PropertyValue.vNum 1)]).ty
      [("v", PropertyValue.vNum 1)] [("v", PropertyValue.vNum 2)]).retID = "A-2" ∧
    (stepApply ctxFix (newUpdateStep (resFixID "A" "old-id" [("v", PropertyValue.vNum 1)])
        (resFix "A" [("v", PropertyValue.vNum 2)]))).1 =
      StepOutcome.done none ResourceState.ok ∧
    (stepApply ctxFix (newUpdateStep (resFixID "A" "old-id" [("v", PropertyValue.vNum 1)])
        (resFix "A" [("v", PropertyValue.vNum 2)]))).2.1.new =
      some (if (provFix.update "old-id" (resFixID "A" "old-id" [("v", PropertyValue.vNum 1)]).ty
          [("v", PropertyValue.vNum 1)] [("v", PropertyValue.vNum 2)]).retID = ""
        then resFix "A" [("v", PropertyValue.vNum 2)]
        else { resFix "A" [("v", PropertyValue.vNum 2)] with
          rid := (provFix.update "old-id" (resFixID "A" "old-id" [("v", PropertyValue.vNum 1)]).ty
            [("v", PropertyValue.vNum 1)] [("v", PropertyValue.vNum 2)]).retID }) :=
  ⟨rfl, rfl,
    update_replacement_id ctxFix
      (newUpdateStep (resFixID "A" "old-id" [("v", PropertyValue.vNum 1)])
        (resFix "A" [("v", PropertyValue.vNum 2)]))
      (resFixID "A" "old-id" [("v", PropertyValue.vNum 1)])
      (resFix "A" [("v", PropertyValue.vNum 2)]) provFix
      rfl rfl rfl rfl rfl rfl rfl⟩

/-- C9: executing a step never mutates the old resource slot or the
operation, and mutates the new resource at most in its ID - moniker, type
and property bag are preserved - and only when the step returned success
for a create or update. -/
theorem step_apply_frame (ctx : PlanContext) (s : PlanStep) :
    (stepApply ctx s).2.1.old = s.old ∧
    (stepApply ctx s).2.1.op = s.op ∧
    resFrame s.new ((stepApply ctx s).2.1.new) ∧
    ((stepApply ctx s).2.1.new = s.new ∨
      ((stepApply ctx s).1 = StepOutcome.done none ResourceState.ok ∧
        (s.op = StepOp.create ∨ s.op = StepOp.update))) := by
  obtain ⟨op, sold, snew⟩ := s
  cases op <;> cases sold <;> cases snew <;> simp only [stepApply]
  all_goals repeat' split
  all_goals simp [resFrame]

/-- C10: when provider acquisition fails for a step whose contract
preconditions hold, step execution returns the acquisition error paired
with StateOK, leaves the step untouched and invokes no provider
operation. -/
theorem provider_error_state_ok (ctx : PlanContext) (s : PlanStep) (e : String)
    (hshape : stepShapeOKB s = true) (hacq : ctx (stepPkg s) = Except.error e) :
    stepApply ctx s = (StepOutcome.done (some e) ResourceState.ok, s, []) := by
  obtain ⟨op, sold, snew⟩ := s
  cases op <;> cases sold <;> cases snew <;> simp only [stepShapeOKB] at hshape
  all_goals try exact absurd hshape (by decide)
  all_goals simp_all [stepApply, stepPkg]

/-- C10 (witness): the acquisition-failure theorem applied at a create step
whose package is not registered. -/
theorem provider_error_state_ok_witness :
    stepShapeOKB (newCreateStep (resNoPkg "A")) = true ∧
    ctxFix (stepPkg (newCreateStep (resNoPkg "A"))) = Except.error "no provider for package" ∧
    stepApply ctxFix (newCreateStep (resNoPkg "A")) =
      (StepOutcome.done (some "no provider for package") ResourceState.ok,
        newCreateStep (resNoPkg "A"), []) :=
  ⟨by decide, rfl,
    provider_error_state_ok ctxFix
      (newCreateStep (resNoPkg "A")) "no provider for package" (by decide) rfl⟩
